import Mathlib

/-!
# KPI / CAS Email Report — verification of the change-detection and metrics core

Shallow embedding of the repository's change-detection engine
(`src/change_detector.py`), metrics layer (`src/metrics.py`), KPI severity
classification (`src/html_report_generator.py`, `src/email_renderer.py`) and
the configuration tables (`src/config.py`).

Modelling conventions:
* a pandas DataFrame of opportunity rows is a `List Row`;
* a missing / NaN / NaT cell is `Option.none`; numeric cells are `ℚ`,
  date cells are an integer day number (the code compares dates at day
  granularity, so one integer per date is faithful);
* pandas boolean semantics on NaN (`NaN < x` is `False`, `NaN > x` is
  `False`) are reproduced by explicit `Option` matches;
* `pd.Series.sum()` skips NaN, `mean()` of an empty column is NaN — the
  mean is therefore modelled as `Option ℚ` with `none` standing for NaN;
* Python's `list.sort` / pandas lexicographic sorts are stable; they are
  modelled by `stableSort`, a stable insertion sort.
-/

namespace KpiReport

/-- One opportunity row.  Field set follows `COLUMNS` in `src/config.py`;
only the columns actually read by the change detector and the metrics
calculator are carried.  `none` models a NaN/NaT/missing cell. -/
structure Row where
  id : String
  responsible : Option String
  market : Option String
  customer : Option String
  kpi : Option String
  stage : Option String
  usd : Option ℚ
  createdDate : Option Int
  closeDate : Option Int
deriving DecidableEq, Repr

/-- `STAGE_ORDER` from `src/config.py`: the ordered stage sequence used to
decide advance vs regress. -/
def STAGE_ORDER : List String :=
  [ "Identify the opportunity"
  , "Customer Analysis"
  , "NDD/RFI"
  , "NTP/RFI"
  , "Application approved"
  , "Financial Analysis"
  , "Work Needs Analysis"
  , "Tenant Lease"
  , "Ground Lease Agreement"
  , "TLA Signature"
  , "Client Approval"
  , "Work Execution"
  , "Construction"
  , "Service Delivery Analysis"
  , "Ready to Bill"
  , "Reported to Finance"
  , "Proceed with Billing Changes"
  , "Equipment Removal"
  , "Customer Notification"
  , "Cancelado" ]

/-- `STAGNANT_DAYS_THRESHOLD` from `src/config.py`. -/
def STAGNANT_DAYS_THRESHOLD : Int := 30

/-- `WARNING_DAYS_BEFORE_CLOSE` from `src/config.py`. -/
def WARNING_DAYS_BEFORE_CLOSE : Int := 7

/-- `STAGE_ORDER.index(v) if v in STAGE_ORDER else -1` from
`ChangeDetector._classify_stage_change`; a NaN stage (`none`) is not in the
list, hence also `-1`. -/
def stageRank (v : Option String) : Int :=
  match v with
  | none => -1
  | some s => if STAGE_ORDER.contains s then (STAGE_ORDER.indexOf s : Int) else -1

/-- True when the value is a string occurring in `STAGE_ORDER`. -/
def isKnownStage (v : Option String) : Bool :=
  match v with
  | none => false
  | some s => STAGE_ORDER.contains s

/-- `ChangeDetector._classify_stage_change` (src/change_detector.py lines
235-248): compare the ranks, larger new rank is an advance, smaller a
regress, equal ranks the generic change.  The `try/except` in the source
cannot fire because `index` is guarded by the membership test. -/
def classifyStageChange (newStage oldStage : Option String) : String :=
  let newIdx := stageRank newStage
  let oldIdx := stageRank oldStage
  if oldIdx < newIdx then "stage_advance"
  else if newIdx < oldIdx then "stage_regress"
  else "stage_change"

lemma stageRank_of_unknown {v : Option String} (h : isKnownStage v = false) :
    stageRank v = -1 := by
  cases v with
  | none => rfl
  | some s =>
    have hc : ¬ (STAGE_ORDER.contains s = true) := by
      simp only [isKnownStage] at h
      rw [h]; exact Bool.false_ne_true
    show (if STAGE_ORDER.contains s then ((STAGE_ORDER.indexOf s : Nat) : Int)
        else -1) = -1
    rw [if_neg hc]

lemma stageRank_of_known {v : Option String} (h : isKnownStage v = true) :
    0 ≤ stageRank v := by
  cases v with
  | none => simp [isKnownStage] at h
  | some s =>
    have hc : STAGE_ORDER.contains s = true := by
      simpa only [isKnownStage] using h
    show 0 ≤ (if STAGE_ORDER.contains s then ((STAGE_ORDER.indexOf s : Nat) : Int)
        else -1)
    rw [if_pos hc]
    exact Int.natCast_nonneg _

lemma stageRank_some_of_mem {s : String} (h : s ∈ STAGE_ORDER) :
    stageRank (some s) = (STAGE_ORDER.indexOf s : Int) := by
  have hc : STAGE_ORDER.contains s = true :=
    List.contains_iff_exists_mem_beq.mpr ⟨s, h, by simp⟩
  show (if STAGE_ORDER.contains s then ((STAGE_ORDER.indexOf s : Nat) : Int)
      else -1) = (STAGE_ORDER.indexOf s : Int)
  rw [if_pos hc]

/-- C2 (counterexample): a change from a stage value that is absent from
`STAGE_ORDER` to a known stage is classified `stage_advance`, not the
generic `stage_change` the claim demands. -/
theorem classifyStageChange_unknown_not_generic :
    classifyStageChange (some "Customer Analysis") (some "Etapa Desconocida")
        = "stage_advance"
      ∧ "stage_advance" ≠ "stage_change" := by
  constructor
  · rfl
  · decide

/-- C2 (amended): values absent from the ordered stage sequence are ranked
below every known stage, so the generic `stage_change` arises only when BOTH
values are unknown; when exactly one value is unknown the change is
classified `stage_advance` (unknown → known) or `stage_regress`
(known → unknown). -/
theorem classifyStageChange_unknown_cases (newStage oldStage : Option String) :
    (isKnownStage newStage = false → isKnownStage oldStage = false →
        classifyStageChange newStage oldStage = "stage_change")
    ∧ (isKnownStage newStage = true → isKnownStage oldStage = false →
        classifyStageChange newStage oldStage = "stage_advance")
    ∧ (isKnownStage newStage = false → isKnownStage oldStage = true →
        classifyStageChange newStage oldStage = "stage_regress") := by
  refine ⟨?_, ?_, ?_⟩
  · intro hn ho
    rw [classifyStageChange]
    rw [stageRank_of_unknown hn, stageRank_of_unknown ho]
    simp
  · intro hn ho
    have h1 := stageRank_of_known hn
    rw [classifyStageChange]
    rw [stageRank_of_unknown ho]
    rw [if_pos (by omega)]
  · intro hn ho
    have h1 := stageRank_of_known ho
    rw [classifyStageChange]
    rw [stageRank_of_unknown hn]
    rw [if_neg (by omega), if_pos (by omega)]

/-- C2 witness: the amended theorem applied at a concrete known/unknown
pair in both directions. -/
theorem classifyStageChange_unknown_cases_witness :
    classifyStageChange (some "NDD/RFI") none = "stage_advance"
      ∧ classifyStageChange none (some "NDD/RFI") = "stage_regress" :=
  ⟨(classifyStageChange_unknown_cases (some "NDD/RFI") none).2.1
      (by decide) (by decide),
   (classifyStageChange_unknown_cases none (some "NDD/RFI")).2.2
      (by decide) (by decide)⟩

/-- C3: for stages `s`, `t` both present in `STAGE_ORDER`, moving to a
stage of strictly greater rank is `stage_advance` and to a strictly smaller
rank `stage_regress`. -/
theorem classifyStageChange_monotone (s t : String)
    (hs : s ∈ STAGE_ORDER) (ht : t ∈ STAGE_ORDER) :
    (STAGE_ORDER.indexOf t < STAGE_ORDER.indexOf s →
        classifyStageChange (some s) (some t) = "stage_advance")
    ∧ (STAGE_ORDER.indexOf s < STAGE_ORDER.indexOf t →
        classifyStageChange (some s) (some t) = "stage_regress") := by
  constructor
  · intro h
    rw [classifyStageChange, stageRank_some_of_mem hs, stageRank_some_of_mem ht]
    rw [if_pos (by exact_mod_cast h)]
  · intro h
    rw [classifyStageChange, stageRank_some_of_mem hs, stageRank_some_of_mem ht]
    rw [if_neg (by omega), if_pos (by exact_mod_cast h)]

/-- C3 witness: advance from the first to the second stage of the order,
and the corresponding regress. -/
theorem classifyStageChange_monotone_witness :
    classifyStageChange (some "Customer Analysis")
        (some "Identify the opportunity") = "stage_advance"
      ∧ classifyStageChange (some "Identify the opportunity")
        (some "Customer Analysis") = "stage_regress" :=
  ⟨(classifyStageChange_monotone "Customer Analysis" "Identify the opportunity"
      (by decide) (by decide)).1 (by decide),
   (classifyStageChange_monotone "Identify the opportunity" "Customer Analysis"
      (by decide) (by decide)).2 (by decide)⟩

/-! ## Change detector (`src/change_detector.py`) -/

/-- A raw cell value carried on a `ChangeRecord`.  The source stores the
`_format_value` display string; the string rendering itself (thousands
separators, `%Y-%m-%d`) is presentation-only and no claim depends on it, so
the typed value is kept, with `na` for the `"N/A"` marker. -/
inductive FieldVal where
  | na
  | str (s : String)
  | num (q : ℚ)
  | date (d : Int)
deriving DecidableEq, Repr

/-- Encode an optional string cell for storage on a change record. -/
def fvStr : Option String → FieldVal
  | none => .na
  | some s => .str s

/-- Encode an optional numeric cell for storage on a change record. -/
def fvNum : Option ℚ → FieldVal
  | none => .na
  | some q => .num q

/-- Encode an optional date cell for storage on a change record. -/
def fvDate : Option Int → FieldVal
  | none => .na
  | some d => .date d

/-- `ChangeRecord` dataclass (src/change_detector.py lines 22-42). -/
structure ChangeRec where
  opportunity_id : String
  field : String
  old_value : FieldVal
  new_value : FieldVal
  change_type : String
  responsible : Option String
  market : Option String
deriving DecidableEq, Repr

/-- `pd.to_numeric(new, errors="coerce") > pd.to_numeric(old, errors="coerce")`:
any comparison involving NaN (a `none`) is `False`. -/
def nanGt (a b : Option ℚ) : Bool :=
  match a, b with
  | some x, some y => decide (y < x)
  | _, _ => false

/-- The `usd` branch of `ChangeDetector._classify_change` (lines 223-227). -/
def classifyUsdChange (newVal oldVal : Option ℚ) : String :=
  if nanGt newVal oldVal then "value_increase" else "value_decrease"

/-- `ChangeDetector._detect_row_changes` (lines 160-192) specialised to the
default `TRACKED_COLUMNS = [Stage, Responsible, USD, CloseDate, KPI]`.
For each tracked column the source skips when both cells are NaN and
otherwise emits a record when `_values_equal` is false; since
`_values_equal` is true exactly when both are NaN or both are present and
equal (dates already at day granularity here), a record is emitted exactly
when the two `Option` cells differ.  `change_type` dispatch follows
`_classify_change` (lines 219-233). -/
def detectRowChanges (oppId : String) (cur prev : Row) : List ChangeRec :=
  let responsible := cur.responsible
  let market := cur.market
  (if cur.stage ≠ prev.stage then
    [⟨oppId, "Stage", fvStr prev.stage, fvStr cur.stage,
      classifyStageChange cur.stage prev.stage, responsible, market⟩] else [])
  ++ (if cur.responsible ≠ prev.responsible then
    [⟨oppId, "Responsible", fvStr prev.responsible, fvStr cur.responsible,
      "reassignment", responsible, market⟩] else [])
  ++ (if cur.usd ≠ prev.usd then
    [⟨oppId, "USD", fvNum prev.usd, fvNum cur.usd,
      classifyUsdChange cur.usd prev.usd, responsible, market⟩] else [])
  ++ (if cur.closeDate ≠ prev.closeDate then
    [⟨oppId, "CloseDate", fvDate prev.closeDate, fvDate cur.closeDate,
      "reschedule", responsible, market⟩] else [])
  ++ (if cur.kpi ≠ prev.kpi then
    [⟨oppId, "KPI", fvStr prev.kpi, fvStr cur.kpi,
      "modified", responsible, market⟩] else [])

/-- The id set of a snapshot: `set(df[id_column].unique())`. -/
def idSet (l : List Row) : Finset String := (l.map Row.id).toFinset

/-- Row changes contributed by one common id: the source takes the first
row carrying the id on each side (`iloc[0]`) and diffs them.  The final
arm is unreachable for ids common to both snapshots. -/
def rowChangesFor (cur prev : List Row) (oppId : String) : List ChangeRec :=
  match cur.find? (fun r => r.id = oppId), prev.find? (fun r => r.id = oppId) with
  | some c, some p => detectRowChanges oppId c p
  | _, _ => []

/-- The common ids, one occurrence each.  The source iterates a Python set
`current_ids & previous_ids`; the model fixes the iteration order to first
appearance in the current snapshot (no claim depends on the order). -/
def commonIdList (cur prev : List Row) : List String :=
  ((cur.map Row.id).dedup).filter (fun i => decide (i ∈ idSet prev))

/-- All change records of one comparison, in iteration order. -/
def compareChanges (cur prev : List Row) : List ChangeRec :=
  ((commonIdList cur prev).map (rowChangesFor cur prev)).flatten

/-- Common ids whose row diff produced no change records. -/
def unchangedIdList (cur prev : List Row) : List String :=
  (commonIdList cur prev).filter (fun i => (rowChangesFor cur prev i).isEmpty)

/-- `df[usd].sum()`: pandas sums with `skipna=True`, so NaN contributes 0. -/
def sumUsd (l : List Row) : ℚ := (l.map (fun r => r.usd.getD 0)).sum

/-- Build an occurrence-count table the way the source builds a Python
dict in a loop (`d[k] = d.get(k, 0) + 1`), keeping insertion order. -/
def bumpKey {κ : Type} [DecidableEq κ] (k : κ) : List (κ × Nat) → List (κ × Nat)
  | [] => [(k, 1)]
  | (k2, n) :: rest =>
      if k2 = k then (k2, n + 1) :: rest else (k2, n) :: bumpKey k rest

/-- Count occurrences of `f a` over a list, mirroring the summary loops. -/
def countBy {α κ : Type} [DecidableEq κ] (f : α → κ) (l : List α) :
    List (κ × Nat) :=
  l.foldl (fun acc a => bumpKey (f a) acc) []

/-- The summary dict produced by `ChangeDetector._generate_summary`
(lines 250-292). -/
structure CdSummary where
  total_current : Nat
  total_previous : Nat
  new_count : Nat
  removed_count : Nat
  changed_count : Nat
  unchanged_count : Nat
  total_changes : Nat
  new_usd : ℚ
  removed_usd : ℚ
  current_total_usd : ℚ
  previous_total_usd : ℚ
  usd_change : ℚ
  changes_by_type : List (String × Nat)
  changes_by_responsible : List (Option String × Nat)
  changes_by_market : List (Option String × Nat)
deriving DecidableEq, Repr

/-- `ChangeDetector._generate_summary`: counts, USD aggregates and the
three breakdown tables.  `changed_count` is `len(set(ids of changes))`. -/
def generateSummary (cur prev newOpps removedOpps : List Row)
    (changes : List ChangeRec) (unchanged : List Row) : CdSummary :=
  { total_current := cur.length
    total_previous := prev.length
    new_count := newOpps.length
    removed_count := removedOpps.length
    changed_count := ((changes.map ChangeRec.opportunity_id).dedup).length
    unchanged_count := unchanged.length
    total_changes := changes.length
    new_usd := if 0 < newOpps.length then sumUsd newOpps else 0
    removed_usd := if 0 < removedOpps.length then sumUsd removedOpps else 0
    current_total_usd := sumUsd cur
    previous_total_usd := sumUsd prev
    usd_change := sumUsd cur - sumUsd prev
    changes_by_type := countBy ChangeRec.change_type changes
    changes_by_responsible := countBy ChangeRec.responsible changes
    changes_by_market := countBy ChangeRec.market changes }

/-- `ComparisonResult` dataclass (lines 45-77); the accessor helpers are
not needed by any claim. -/
structure ComparisonResult where
  new_opportunities : List Row
  removed_opportunities : List Row
  changes : List ChangeRec
  unchanged : List Row
  summary : CdSummary
deriving DecidableEq, Repr

/-- `ChangeDetector.compare` (lines 94-158): set-diff the ids, slice the
new/removed rows, diff every common id, and summarise. -/
def compare (cur prev : List Row) : ComparisonResult :=
  let newOpps := cur.filter (fun r => decide (r.id ∈ idSet cur \ idSet prev))
  let removedOpps := prev.filter (fun r => decide (r.id ∈ idSet prev \ idSet cur))
  let changes := compareChanges cur prev
  let unchanged := cur.filter (fun r => decide (r.id ∈ unchangedIdList cur prev))
  { new_opportunities := newOpps
    removed_opportunities := removedOpps
    changes := changes
    unchanged := unchanged
    summary := generateSummary cur prev newOpps removedOpps changes unchanged }

lemma mem_ite_singleton {α : Type} {c : Prop} [Decidable c] {x a : α}
    (h : x ∈ (if c then [a] else [])) : c ∧ x = a := by
  by_cases hc : c
  · rw [if_pos hc] at h
    exact ⟨hc, List.mem_singleton.mp h⟩
  · rw [if_neg hc] at h
    exact absurd h (List.not_mem_nil x)

/-- Every record emitted for a row pair carries that row pair's id. -/
lemma detectRowChanges_oid {oppId : String} {c p : Row} {rec : ChangeRec}
    (h : rec ∈ detectRowChanges oppId c p) : rec.opportunity_id = oppId := by
  simp only [detectRowChanges, List.mem_append] at h
  rcases h with ((((h | h) | h) | h) | h) <;>
    · obtain ⟨-, rfl⟩ := mem_ite_singleton h
      rfl

/-- The only USD-field record a row diff can emit. -/
lemma detectRowChanges_usd_mem {oppId : String} {c p : Row} {rec : ChangeRec}
    (h : rec ∈ detectRowChanges oppId c p) (hf : rec.field = "USD") :
    c.usd ≠ p.usd
      ∧ rec = ⟨oppId, "USD", fvNum p.usd, fvNum c.usd,
          classifyUsdChange c.usd p.usd, c.responsible, c.market⟩ := by
  simp only [detectRowChanges, List.mem_append] at h
  rcases h with ((((h | h) | h) | h) | h) <;>
    obtain ⟨hc, rfl⟩ := mem_ite_singleton h
  · simp at hf
  · simp at hf
  · exact ⟨hc, rfl⟩
  · simp at hf
  · simp at hf

/-- C10: a USD change is classified `value_increase` only when both the
new and the old cell hold numbers and the new one is strictly greater;
whenever exactly one of the two USD cells is missing (NaN), the emitted
USD record is classified `value_decrease` (the NaN comparison is false, so
the `else` branch fires). -/
theorem usd_change_classification (oppId : String) (c p : Row) :
    (∀ rec ∈ detectRowChanges oppId c p, rec.field = "USD" →
        rec.change_type = "value_increase" →
        ∃ n o : ℚ, c.usd = some n ∧ p.usd = some o ∧ o < n)
    ∧ ((c.usd = none ∧ p.usd ≠ none) ∨ (c.usd ≠ none ∧ p.usd = none) →
        ∃ rec ∈ detectRowChanges oppId c p,
          rec.field = "USD" ∧ rec.change_type = "value_decrease") := by
  constructor
  · intro rec hmem hf hinc
    obtain ⟨hne, rfl⟩ := detectRowChanges_usd_mem hmem hf
    simp only [ChangeRec.change_type] at hinc
    rw [classifyUsdChange] at hinc
    by_cases hgt : nanGt c.usd p.usd = true
    · match hcu : c.usd, hpu : p.usd with
      | some n, some o =>
        rw [hcu, hpu] at hgt
        simp only [nanGt, decide_eq_true_eq] at hgt
        exact ⟨n, o, rfl, rfl, hgt⟩
      | none, _ => rw [hcu] at hgt; simp [nanGt] at hgt
      | some n, none => rw [hcu, hpu] at hgt; simp [nanGt] at hgt
    · rw [if_neg hgt] at hinc
      exact absurd hinc (by decide)
  · intro hmix
    have hne : c.usd ≠ p.usd := by
      rcases hmix with ⟨h1, h2⟩ | ⟨h1, h2⟩
      · rw [h1]; exact fun h => h2 h.symm
      · rw [h2]; exact h1
    have hdec : classifyUsdChange c.usd p.usd = "value_decrease" := by
      rw [classifyUsdChange, if_neg]
      intro hgt
      rcases hmix with ⟨h1, -⟩ | ⟨-, h2⟩
      · rw [h1] at hgt; simp [nanGt] at hgt
      · rw [h2] at hgt
        match hcu : c.usd with
        | none => rw [hcu] at hgt; simp [nanGt] at hgt
        | some n => rw [hcu] at hgt; simp [nanGt] at hgt
    refine ⟨⟨oppId, "USD", fvNum p.usd, fvNum c.usd,
        classifyUsdChange c.usd p.usd, c.responsible, c.market⟩, ?_, rfl, hdec⟩
    simp only [detectRowChanges, List.mem_append]
    refine Or.inl (Or.inl (Or.inr ?_))
    rw [if_pos hne]
    exact List.mem_singleton.mpr rfl

/-- Concrete rows for the C10 witness. -/
def rowUsdNone : Row :=
  { id := "W", responsible := some "Ana", market := some "MX", customer := none
  , kpi := none, stage := none, usd := none, createdDate := none, closeDate := none }

/-- Concrete rows for the C10 witness. -/
def rowUsd50 : Row :=
  { id := "W", responsible := some "Ana", market := some "MX", customer := none
  , kpi := none, stage := none, usd := some 50, createdDate := none, closeDate := none }

/-- Concrete rows for the C10 witness. -/
def rowUsd100 : Row :=
  { id := "W", responsible := some "Ana", market := some "MX", customer := none
  , kpi := none, stage := none, usd := some 100, createdDate := none, closeDate := none }

/-- C10 witness: on the null→numeric pair some emitted USD record is a
`value_decrease`, and on a numeric 50→100 pair the increase record forces
both cells to be numeric. -/
theorem usd_change_classification_witness :
    (detectRowChanges "W" rowUsdNone rowUsd50).any
        (fun rec => rec.field == "USD" && rec.change_type == "value_decrease")
      = true
    ∧ rowUsd100.usd.isSome = true ∧ rowUsd50.usd.isSome = true := by
  refine ⟨?_, ?_⟩
  · obtain ⟨rec, hmem, hf, ht⟩ :=
      (usd_change_classification "W" rowUsdNone rowUsd50).2
        (Or.inl ⟨rfl, by decide⟩)
    exact List.any_eq_true.mpr ⟨rec, hmem, by simp [hf, ht]⟩
  · obtain ⟨n, o, hn, ho, -⟩ :=
      (usd_change_classification "W" rowUsd100 rowUsd50).1
        ⟨"W", "USD", fvNum rowUsd50.usd, fvNum rowUsd100.usd,
          classifyUsdChange rowUsd100.usd rowUsd50.usd,
          rowUsd100.responsible, rowUsd100.market⟩
        (by decide) (by decide) (by decide)
    rw [hn, ho]
    exact ⟨rfl, rfl⟩

/-- Diffing a row against itself emits nothing. -/
lemma rowChangesFor_self (l : List Row) (i : String) :
    rowChangesFor l l i = [] := by
  rw [rowChangesFor]
  cases h : l.find? (fun r => r.id = i) with
  | none => rfl
  | some c => simp [detectRowChanges]

/-- Comparing a snapshot against itself produces no change records. -/
lemma compareChanges_self (l : List Row) : compareChanges l l = [] := by
  rw [compareChanges]
  rw [List.flatten_eq_nil_iff]
  intro xs hxs
  obtain ⟨i, -, rfl⟩ := List.mem_map.mp hxs
  exact rowChangesFor_self l i

lemma commonIdList_self (l : List Row) :
    commonIdList l l = (l.map Row.id).dedup := by
  rw [commonIdList]
  apply List.filter_eq_self.mpr
  intro i hi
  have : i ∈ idSet l := List.mem_toFinset.mpr (List.mem_dedup.mp hi)
  simpa using this

lemma unchangedIdList_self (l : List Row) :
    unchangedIdList l l = (l.map Row.id).dedup := by
  rw [unchangedIdList]
  rw [← commonIdList_self l]
  apply List.filter_eq_self.mpr
  intro i _
  rw [rowChangesFor_self l i]
  rfl

/-- C4: comparing a snapshot against itself yields zero new, removed and
changed counts, and an unchanged count equal to the snapshot size. -/
theorem compare_self_idempotent (l : List Row) :
    (compare l l).summary.new_count = 0
      ∧ (compare l l).summary.removed_count = 0
      ∧ (compare l l).summary.changed_count = 0
      ∧ (compare l l).summary.unchanged_count = l.length := by
  have hfil : ∀ m : List Row,
      m.filter (fun r => decide (r.id ∈ idSet m \ idSet m)) = [] := by
    intro m
    apply List.filter_eq_nil_iff.mpr
    intro r _
    simp [Finset.sdiff_self]
  have hunch : l.filter (fun r => decide (r.id ∈ unchangedIdList l l)) = l := by
    apply List.filter_eq_self.mpr
    intro r hr
    rw [unchangedIdList_self l]
    simp only [decide_eq_true_eq]
    exact List.mem_dedup.mpr (List.mem_map.mpr ⟨r, hr, rfl⟩)
  refine ⟨?_, ?_, ?_, ?_⟩
  · show (l.filter (fun r => decide (r.id ∈ idSet l \ idSet l))).length = 0
    rw [hfil l]; rfl
  · show (l.filter (fun r => decide (r.id ∈ idSet l \ idSet l))).length = 0
    rw [hfil l]; rfl
  · show (((compareChanges l l).map ChangeRec.opportunity_id).dedup).length = 0
    rw [compareChanges_self l]; rfl
  · show (l.filter (fun r => decide (r.id ∈ unchangedIdList l l))).length = l.length
    rw [hunch]

lemma idSet_filter_mem (l : List Row) (S : Finset String) :
    idSet (l.filter (fun r => decide (r.id ∈ S))) = idSet l ∩ S := by
  ext i
  simp only [idSet, List.mem_toFinset, List.mem_map, List.mem_filter,
    decide_eq_true_eq, Finset.mem_inter]
  constructor
  · rintro ⟨r, ⟨hl, hS⟩, rfl⟩
    exact ⟨⟨r, hl, rfl⟩, hS⟩
  · rintro ⟨⟨r, hl, rfl⟩, hS⟩
    exact ⟨r, ⟨hl, hS⟩, rfl⟩

lemma mem_commonIdList {cur prev : List Row} {i : String} :
    i ∈ commonIdList cur prev ↔ i ∈ idSet cur ∧ i ∈ idSet prev := by
  rw [commonIdList]
  simp only [List.mem_filter, List.mem_dedup, decide_eq_true_eq]
  exact ⟨fun ⟨h1, h2⟩ => ⟨List.mem_toFinset.mpr h1, h2⟩,
    fun ⟨h1, h2⟩ => ⟨List.mem_toFinset.mp h1, h2⟩⟩

lemma rowChangesFor_oid {cur prev : List Row} {i : String} {rec : ChangeRec}
    (h : rec ∈ rowChangesFor cur prev i) : rec.opportunity_id = i := by
  rw [rowChangesFor] at h
  cases hc : cur.find? (fun r => r.id = i) with
  | none =>
    rw [hc] at h
    exact absurd h (List.not_mem_nil rec)
  | some c =>
    cases hp : prev.find? (fun r => r.id = i) with
    | none =>
      rw [hc, hp] at h
      exact absurd h (List.not_mem_nil rec)
    | some p =>
      rw [hc, hp] at h
      exact detectRowChanges_oid h

lemma mem_changes_ids {cur prev : List Row} {i : String} :
    (∃ rec ∈ compareChanges cur prev, rec.opportunity_id = i)
      ↔ i ∈ commonIdList cur prev ∧ rowChangesFor cur prev i ≠ [] := by
  constructor
  · rintro ⟨rec, hmem, rfl⟩
    rw [compareChanges] at hmem
    obtain ⟨xs, hxs, hrec⟩ := List.mem_flatten.mp hmem
    obtain ⟨j, hj, rfl⟩ := List.mem_map.mp hxs
    rw [rowChangesFor_oid hrec]
    refine ⟨hj, fun hnil => ?_⟩
    rw [hnil] at hrec
    exact List.not_mem_nil rec hrec
  · rintro ⟨hi, hne⟩
    obtain ⟨rec, hrec⟩ := List.exists_mem_of_ne_nil _ hne
    refine ⟨rec, ?_, rowChangesFor_oid hrec⟩
    rw [compareChanges]
    exact List.mem_flatten.mpr ⟨_, List.mem_map.mpr ⟨i, hi, rfl⟩, hrec⟩

lemma mem_idSet_unchanged {cur prev : List Row} {i : String} :
    i ∈ idSet (cur.filter (fun r => decide (r.id ∈ unchangedIdList cur prev)))
      ↔ i ∈ commonIdList cur prev ∧ rowChangesFor cur prev i = [] := by
  simp only [idSet, List.mem_toFinset, List.mem_map, List.mem_filter,
    decide_eq_true_eq]
  constructor
  · rintro ⟨r, ⟨hl, hu⟩, rfl⟩
    rw [unchangedIdList, List.mem_filter] at hu
    exact ⟨hu.1, by simpa using hu.2⟩
  · rintro ⟨hc, hnil⟩
    have hcur : i ∈ idSet cur := (mem_commonIdList.mp hc).1
    obtain ⟨r, hl, hid⟩ := List.mem_map.mp (List.mem_toFinset.mp hcur)
    refine ⟨r, ⟨hl, ?_⟩, hid⟩
    rw [unchangedIdList, List.mem_filter, hid]
    exact ⟨hc, by simp [hnil]⟩

/-- C1: the result of `ChangeDetector.compare` partitions the id universe:
new and removed ids are disjoint, together with the common ids they cover
exactly `current_ids ∪ previous_ids`, no new id occurs in the previous
snapshot, no removed id in the current one, and every common id lies in
exactly one of the changed / unchanged id sets. -/
theorem compare_id_partition (cur prev : List Row) :
    idSet (compare cur prev).new_opportunities
        ∩ idSet (compare cur prev).removed_opportunities = ∅
    ∧ idSet (compare cur prev).new_opportunities
        ∪ idSet (compare cur prev).removed_opportunities
        ∪ (idSet cur ∩ idSet prev) = idSet cur ∪ idSet prev
    ∧ idSet (compare cur prev).new_opportunities ∩ idSet prev = ∅
    ∧ idSet (compare cur prev).removed_opportunities ∩ idSet cur = ∅
    ∧ ∀ i ∈ idSet cur ∩ idSet prev,
        Xor' (i ∈ ((compare cur prev).changes.map ChangeRec.opportunity_id).toFinset)
          (i ∈ idSet (compare cur prev).unchanged) := by
  have hnew : idSet (compare cur prev).new_opportunities
      = idSet cur \ idSet prev := by
    show idSet (cur.filter (fun r => decide (r.id ∈ idSet cur \ idSet prev))) = _
    rw [idSet_filter_mem]
    ext i
    simp only [Finset.mem_inter, Finset.mem_sdiff]
    tauto
  have hrem : idSet (compare cur prev).removed_opportunities
      = idSet prev \ idSet cur := by
    show idSet (prev.filter (fun r => decide (r.id ∈ idSet prev \ idSet cur))) = _
    rw [idSet_filter_mem]
    ext i
    simp only [Finset.mem_inter, Finset.mem_sdiff]
    tauto
  refine ⟨?_, ?_, ?_, ?_, ?_⟩
  · rw [hnew, hrem]
    ext i
    simp only [Finset.mem_inter, Finset.mem_sdiff, Finset.not_mem_empty, iff_false]
    tauto
  · rw [hnew, hrem]
    ext i
    simp only [Finset.mem_union, Finset.mem_inter, Finset.mem_sdiff]
    tauto
  · rw [hnew]
    ext i
    simp only [Finset.mem_inter, Finset.mem_sdiff, Finset.not_mem_empty, iff_false]
    tauto
  · rw [hrem]
    ext i
    simp only [Finset.mem_inter, Finset.mem_sdiff, Finset.not_mem_empty, iff_false]
    tauto
  · intro i hi
    have hcom : i ∈ commonIdList cur prev := by
      rcases Finset.mem_inter.mp hi with ⟨h1, h2⟩
      exact mem_commonIdList.mpr ⟨h1, h2⟩
    have hch : i ∈ ((compare cur prev).changes.map ChangeRec.opportunity_id).toFinset
        ↔ (∃ rec ∈ compareChanges cur prev, rec.opportunity_id = i) := by
      show i ∈ ((compareChanges cur prev).map ChangeRec.opportunity_id).toFinset ↔ _
      simp only [List.mem_toFinset, List.mem_map]
    have hun : i ∈ idSet (compare cur prev).unchanged
        ↔ i ∈ commonIdList cur prev ∧ rowChangesFor cur prev i = [] :=
      mem_idSet_unchanged
    by_cases hnil : rowChangesFor cur prev i = []
    · refine Or.inr ⟨hun.mpr ⟨hcom, hnil⟩, fun hc => ?_⟩
      exact (mem_changes_ids.mp (hch.mp hc)).2 hnil
    · refine Or.inl ⟨hch.mpr (mem_changes_ids.mpr ⟨hcom, hnil⟩), fun hu => ?_⟩
      exact hnil (hun.mp hu).2

/-- Concrete current row for the C1 witness. -/
def rowA100 : Row :=
  { id := "A", responsible := some "Ana", market := some "MX", customer := none
  , kpi := none, stage := some "Work Execution", usd := some 100
  , createdDate := none, closeDate := none }

/-- Concrete previous row for the C1 witness. -/
def rowA50 : Row :=
  { id := "A", responsible := some "Ana", market := some "MX", customer := none
  , kpi := none, stage := some "Construction", usd := some 50
  , createdDate := none, closeDate := none }

/-- C1 witness: on a concrete snapshot pair, the common id "A" lies in
exactly one of the changed/unchanged id sets. -/
theorem compare_id_partition_witness :
    Xor' ("A" ∈ ((compare [rowA100] [rowA50]).changes.map
          ChangeRec.opportunity_id).toFinset)
      ("A" ∈ idSet (compare [rowA100] [rowA50]).unchanged) :=
  (compare_id_partition [rowA100] [rowA50]).2.2.2.2 "A" (by decide)

/-- C5: for every pair of snapshots (empty ones included) the summary's
`usd_change` is exactly the current USD column sum minus the previous USD
column sum, and the two totals are those sums. -/
theorem compare_usd_change (cur prev : List Row) :
    (compare cur prev).summary.usd_change = sumUsd cur - sumUsd prev
      ∧ (compare cur prev).summary.current_total_usd = sumUsd cur
      ∧ (compare cur prev).summary.previous_total_usd = sumUsd prev :=
  ⟨rfl, rfl, rfl⟩

/-! ## Metrics calculator (`src/metrics.py`) -/

/-- A row after `MetricsCalculator._prepare_data`: USD coerced and
NaN-filled with 0, parsed dates kept, and the derived day counts and flags
attached (the source stores them as extra `_`-prefixed columns).  A `none`
day count models the NaN produced by `NaT` arithmetic; pandas comparisons
on NaN are false, which fixes the flags below. -/
structure PreparedRow where
  id : String
  responsible : Option String
  market : Option String
  customer : Option String
  kpi : Option String
  stage : Option String
  usd : ℚ
  createdDate : Option Int
  closeDate : Option Int
  daysSinceCreation : Option Int
  daysToClose : Option Int
  isStagnant : Bool
  isAtRisk : Bool
deriving DecidableEq, Repr

/-- `MetricsCalculator._prepare_data` (src/metrics.py lines 83-99) for one
row, against the reference day `today`. -/
def prepareRow (today : Int) (r : Row) : PreparedRow :=
  let dsc := r.createdDate.map (fun d => today - d)
  let dtc := r.closeDate.map (fun d => d - today)
  { id := r.id, responsible := r.responsible, market := r.market
  , customer := r.customer, kpi := r.kpi, stage := r.stage
  , usd := r.usd.getD 0
  , createdDate := r.createdDate, closeDate := r.closeDate
  , daysSinceCreation := dsc, daysToClose := dtc
  , isStagnant := match dsc with
      | some d => decide (STAGNANT_DAYS_THRESHOLD < d)
      | none => false
  , isAtRisk := match dtc with
      | some d => decide (d < WARNING_DAYS_BEFORE_CLOSE)
      | none => false }

/-- The whole `_prepare_data` pass. -/
def prepareData (today : Int) (rows : List Row) : List PreparedRow :=
  rows.map (prepareRow today)

/-- `Series.mean()`: NaN (here `none`) on an empty column, else the sum
divided by the length. -/
def meanOpt (l : List ℚ) : Option ℚ :=
  if l.length = 0 then none else some (l.sum / (l.length : ℚ))

/-- `Series.nunique()`: distinct non-null values. -/
def nuniqueOpt (l : List (Option String)) : Nat := (l.filterMap id).dedup.length

/-- `df.groupby(col).size().to_dict()`: group keys sorted ascending, NaN
keys dropped, each with its row count. -/
def groupSizes (key : PreparedRow → Option String) (rows : List PreparedRow) :
    List (String × Nat) :=
  (List.insertionSort (· ≤ ·) ((rows.filterMap key).dedup)).map
    (fun k => (k, (rows.filter (fun r => decide (key r = some k))).length))

/-- The dict returned by `MetricsCalculator.get_summary`
(src/metrics.py lines 101-115). -/
structure MSummary where
  total_opportunities : Nat
  total_usd : ℚ
  avg_usd : Option ℚ
  unique_responsibles : Nat
  unique_markets : Nat
  unique_customers : Nat
  stagnant_count : Nat
  at_risk_count : Nat
  by_kpi : List (String × Nat)
  by_stage : List (String × Nat)
  by_market : List (String × Nat)
deriving DecidableEq, Repr

/-- `MetricsCalculator.get_summary`. -/
def getSummaryM (rows : List PreparedRow) : MSummary :=
  { total_opportunities := rows.length
  , total_usd := (rows.map PreparedRow.usd).sum
  , avg_usd := meanOpt (rows.map PreparedRow.usd)
  , unique_responsibles := nuniqueOpt (rows.map PreparedRow.responsible)
  , unique_markets := nuniqueOpt (rows.map PreparedRow.market)
  , unique_customers := nuniqueOpt (rows.map PreparedRow.customer)
  , stagnant_count := (rows.filter PreparedRow.isStagnant).length
  , at_risk_count := (rows.filter PreparedRow.isAtRisk).length
  , by_kpi := groupSizes PreparedRow.kpi rows
  , by_stage := groupSizes PreparedRow.stage rows
  , by_market := groupSizes PreparedRow.market rows }

/-- C7: on an empty record set the metrics summary is total (no exception
can be modelled to escape), every aggregate is zero or empty, and the USD
mean is the explicit undefined marker `none` (pandas returns NaN rather
than raising a division-by-zero error). -/
theorem getSummaryM_empty (today : Int) :
    getSummaryM (prepareData today []) =
      { total_opportunities := 0, total_usd := 0, avg_usd := none
      , unique_responsibles := 0, unique_markets := 0, unique_customers := 0
      , stagnant_count := 0, at_risk_count := 0
      , by_kpi := [], by_stage := [], by_market := [] } := rfl

/-- Insert `a` into `l` in front of the first element it may precede.
With a reflexive `le` this is the insertion step of a stable sort: an
element inserted from the left of the original list lands before every
tie already placed. -/
def insSorted {α : Type} (le : α → α → Bool) (a : α) : List α → List α
  | [] => [a]
  | b :: l => if le a b then a :: b :: l else b :: insSorted le a l

/-- Stable insertion sort, the model of Python's stable `list.sort` and of
pandas' stable lexicographic `sort_values`. -/
def stableSort {α : Type} (le : α → α → Bool) : List α → List α
  | [] => []
  | a :: l => insSorted le a (stableSort le l)

lemma mem_insSorted {α : Type} {le : α → α → Bool} {a x : α} {l : List α} :
    x ∈ insSorted le a l ↔ x = a ∨ x ∈ l := by
  induction l with
  | nil => simp [insSorted]
  | cons b t ih =>
    rw [insSorted]
    by_cases h : le a b
    · rw [if_pos h]
      simp
    · rw [if_neg h]
      simp only [List.mem_cons, ih]
      tauto

lemma insSorted_perm {α : Type} (le : α → α → Bool) (a : α) (l : List α) :
    List.Perm (insSorted le a l) (a :: l) := by
  induction l with
  | nil => rfl
  | cons b t ih =>
    rw [insSorted]
    by_cases h : le a b
    · rw [if_pos h]
    · rw [if_neg h]
      exact (ih.cons b).trans (List.Perm.swap a b t)

lemma stableSort_perm {α : Type} (le : α → α → Bool) (l : List α) :
    List.Perm (stableSort le l) l := by
  induction l with
  | nil => rfl
  | cons a t ih =>
    rw [stableSort]
    exact (insSorted_perm le a (stableSort le t)).trans (ih.cons a)

/-- Per-responsible aggregate (`ResponsibleMetrics` dataclass,
src/metrics.py lines 22-44).  The `value_counts().to_dict()` tables are
modelled by their contents (`countBy`); no claim depends on their internal
ordering. -/
structure RespMetrics where
  name : String
  total_opportunities : Nat
  total_usd : ℚ
  avg_usd : Option ℚ
  markets : List (Option String)
  kpis : List (Option String × Nat)
  stages : List (Option String × Nat)
  stagnant_count : Nat
  at_risk_count : Nat
deriving DecidableEq, Repr

/-- The rows of one responsible's groupby group, in original order. -/
def respGroup (k : String) (rows : List PreparedRow) : List PreparedRow :=
  rows.filter (fun r => decide (r.responsible = some k))

/-- One `ResponsibleMetrics` record for group key `k`. -/
def mkRespMetrics (k : String) (g : List PreparedRow) : RespMetrics :=
  { name := k
  , total_opportunities := g.length
  , total_usd := (g.map PreparedRow.usd).sum
  , avg_usd := meanOpt (g.map PreparedRow.usd)
  , markets := (g.map PreparedRow.market).dedup
  , kpis := countBy PreparedRow.kpi g
  , stages := countBy PreparedRow.stage g
  , stagnant_count := (g.filter PreparedRow.isStagnant).length
  , at_risk_count := (g.filter PreparedRow.isAtRisk).length }

/-- `df.groupby(responsible)` iterates group keys sorted ascending with
NaN keys dropped. -/
def respKeys (rows : List PreparedRow) : List String :=
  List.insertionSort (· ≤ ·) ((rows.filterMap PreparedRow.responsible).dedup)

/-- The comparator of `metrics.sort(key=lambda x: x.total_opportunities,
reverse=True)`: `a` may precede `b` when its count is at least `b`'s. -/
def respLe (a b : RespMetrics) : Bool :=
  decide (b.total_opportunities ≤ a.total_opportunities)

/-- `MetricsCalculator.get_responsible_metrics` (src/metrics.py lines
117-136): one aggregate per group key in key order, then a stable sort
descending by opportunity count. -/
def getResponsibleMetrics (rows : List PreparedRow) : List RespMetrics :=
  stableSort respLe ((respKeys rows).map (fun k => mkRespMetrics k (respGroup k rows)))

/-- The C8 order relation: strictly descending count, ties strictly
ascending name. -/
def respRel (a b : RespMetrics) : Prop :=
  b.total_opportunities < a.total_opportunities
    ∨ (a.total_opportunities = b.total_opportunities ∧ a.name < b.name)

lemma insSorted_pairwise_resp (a : RespMetrics) (l : List RespMetrics)
    (hl : l.Pairwise respRel)
    (hn : ∀ b ∈ l, a.total_opportunities = b.total_opportunities →
      a.name < b.name) :
    (insSorted respLe a l).Pairwise respRel := by
  induction l with
  | nil => simp [insSorted, List.pairwise_cons]
  | cons b t ih =>
    rw [List.pairwise_cons] at hl
    rw [insSorted]
    by_cases h : respLe a b = true
    · rw [if_pos h]
      rw [respLe, decide_eq_true_eq] at h
      rw [List.pairwise_cons]
      refine ⟨?_, List.pairwise_cons.mpr hl⟩
      intro x hx
      rcases List.mem_cons.mp hx with rfl | hxt
      · rcases lt_or_eq_of_le h with hlt | heq
        · exact Or.inl hlt
        · exact Or.inr ⟨heq.symm, hn x (List.mem_cons_self x t) heq.symm⟩
      · have hbx := hl.1 x hxt
        have hxle : x.total_opportunities ≤ b.total_opportunities := by
          rcases hbx with hlt | ⟨heq, -⟩
          · exact le_of_lt hlt
          · exact le_of_eq heq.symm
        rcases lt_or_eq_of_le (le_trans hxle h) with hlt | heq
        · exact Or.inl hlt
        · exact Or.inr ⟨heq.symm, hn x (List.mem_cons_of_mem b hxt) heq.symm⟩
    · rw [if_neg h]
      rw [respLe, decide_eq_true_eq] at h
      push_neg at h
      rw [List.pairwise_cons]
      constructor
      · intro x hx
        rcases mem_insSorted.mp hx with rfl | hxt
        · exact Or.inl h
        · exact hl.1 x hxt
      · exact ih hl.2 (fun c hc => hn c (List.mem_cons_of_mem b hc))

lemma stableSort_pairwise_resp (l : List RespMetrics)
    (hl : l.Pairwise (fun a b => a.name < b.name)) :
    (stableSort respLe l).Pairwise respRel := by
  induction l with
  | nil => exact List.Pairwise.nil
  | cons a t ih =>
    rw [List.pairwise_cons] at hl
    rw [stableSort]
    refine insSorted_pairwise_resp a _ (ih hl.2) ?_
    intro b hb _
    exact hl.1 b ((stableSort_perm respLe t).mem_iff.mp hb)

lemma respKeys_pairwise_lt (rows : List PreparedRow) :
    (respKeys rows).Pairwise (· < ·) := by
  have hs : (respKeys rows).Pairwise (· ≤ ·) :=
    List.sorted_insertionSort (· ≤ ·) _
  have hnd : (respKeys rows).Pairwise (· ≠ ·) :=
    (List.Perm.nodup_iff (List.perm_insertionSort (· ≤ ·) _)).mpr
      (List.nodup_dedup _)
  exact (hs.and hnd).imp (fun h => lt_of_le_of_ne h.1 h.2)

/-- C8: the per-responsible aggregate list is sorted strictly descending
by opportunity count, and responsibles with equal counts appear in
strictly ascending name order (the stable sort preserves the ascending
groupby key order within ties). -/
theorem getResponsibleMetrics_sorted (rows : List PreparedRow) :
    (getResponsibleMetrics rows).Pairwise (fun a b =>
      b.total_opportunities < a.total_opportunities
        ∨ (a.total_opportunities = b.total_opportunities ∧ a.name < b.name)) := by
  apply stableSort_pairwise_resp
  rw [List.pairwise_map]
  exact (respKeys_pairwise_lt rows).imp (fun h => h)

lemma insSorted_pairwise {α : Type} {le : α → α → Bool}
    (htot : ∀ x y, le x y = true ∨ le y x = true)
    (htr : ∀ x y z, le x y = true → le y z = true → le x z = true)
    (a : α) (l : List α) (hl : l.Pairwise (fun x y => le x y = true)) :
    (insSorted le a l).Pairwise (fun x y => le x y = true) := by
  induction l with
  | nil => simp [insSorted]
  | cons b t ih =>
    rw [List.pairwise_cons] at hl
    rw [insSorted]
    by_cases h : le a b = true
    · rw [if_pos h, List.pairwise_cons]
      refine ⟨?_, List.pairwise_cons.mpr hl⟩
      intro x hx
      rcases List.mem_cons.mp hx with rfl | hxt
      · exact h
      · exact htr a b x h (hl.1 x hxt)
    · rw [if_neg h, List.pairwise_cons]
      refine ⟨?_, ih hl.2⟩
      intro x hx
      rcases mem_insSorted.mp hx with rfl | hxt
      · exact (htot x b).resolve_left h
      · exact hl.1 x hxt

lemma stableSort_pairwise {α : Type} {le : α → α → Bool}
    (htot : ∀ x y, le x y = true ∨ le y x = true)
    (htr : ∀ x y z, le x y = true → le y z = true → le x z = true)
    (l : List α) :
    (stableSort le l).Pairwise (fun x y => le x y = true) := by
  induction l with
  | nil => exact List.Pairwise.nil
  | cons a t ih =>
    rw [stableSort]
    exact insSorted_pairwise htot htr a _ ih

/-- Ascending comparison of an optional sort key with NaN placed last
(pandas `sort_values(ascending=True, na_position="last")`), strict part. -/
def ltOptAsc (a b : Option Int) : Bool :=
  match a, b with
  | some x, some y => decide (x < y)
  | some _, none => true
  | none, _ => false

/-- Descending comparison of an optional sort key with NaN placed last,
non-strict part. -/
def leOptDesc (a b : Option Int) : Bool :=
  match a, b with
  | some x, some y => decide (y ≤ x)
  | some _, none => true
  | none, none => true
  | none, some _ => false

/-- The lexicographic comparator of
`sort_values(["_days_to_close", "_days_since_creation"], ascending=[True, False])`:
first key ascending with nulls last, ties broken by the second key
descending with nulls last. -/
def attnLE (p q : PreparedRow × String) : Bool :=
  ltOptAsc p.1.daysToClose q.1.daysToClose
    || (p.1.daysToClose == q.1.daysToClose
        && leOptDesc p.1.daysSinceCreation q.1.daysSinceCreation)

lemma ltOptAsc_total_eq (a b : Option Int) :
    ltOptAsc a b = true ∨ ltOptAsc b a = true ∨ a = b := by
  cases a with
  | none =>
    cases b with
    | none => exact Or.inr (Or.inr rfl)
    | some y => exact Or.inr (Or.inl rfl)
  | some x =>
    cases b with
    | none => exact Or.inl rfl
    | some y =>
      by_cases h : x < y
      · exact Or.inl (by simp [ltOptAsc, h])
      · by_cases h2 : y < x
        · exact Or.inr (Or.inl (by simp [ltOptAsc, h2]))
        · have hxy : x = y := by omega
          exact Or.inr (Or.inr (by rw [hxy]))

lemma leOptDesc_total (a b : Option Int) :
    leOptDesc a b = true ∨ leOptDesc b a = true := by
  cases a with
  | none =>
    cases b with
    | none => exact Or.inl rfl
    | some y => exact Or.inr rfl
  | some x =>
    cases b with
    | none => exact Or.inl rfl
    | some y =>
      simp only [leOptDesc, decide_eq_true_eq]
      omega

lemma ltOptAsc_trans {a b c : Option Int} (h1 : ltOptAsc a b = true)
    (h2 : ltOptAsc b c = true) : ltOptAsc a c = true := by
  cases a <;> cases b <;> cases c <;> simp_all [ltOptAsc] <;> omega

lemma leOptDesc_trans {a b c : Option Int} (h1 : leOptDesc a b = true)
    (h2 : leOptDesc b c = true) : leOptDesc a c = true := by
  cases a <;> cases b <;> cases c <;> simp_all [leOptDesc] <;> omega

lemma attnLE_true_iff {p q : PreparedRow × String} :
    attnLE p q = true ↔
      ltOptAsc p.1.daysToClose q.1.daysToClose = true
        ∨ (p.1.daysToClose = q.1.daysToClose
            ∧ leOptDesc p.1.daysSinceCreation q.1.daysSinceCreation = true) := by
  simp [attnLE, Bool.or_eq_true, Bool.and_eq_true, beq_iff_eq]

lemma attnLE_total (p q : PreparedRow × String) :
    attnLE p q = true ∨ attnLE q p = true := by
  rcases ltOptAsc_total_eq p.1.daysToClose q.1.daysToClose with h | h | h
  · exact Or.inl (attnLE_true_iff.mpr (Or.inl h))
  · exact Or.inr (attnLE_true_iff.mpr (Or.inl h))
  · rcases leOptDesc_total p.1.daysSinceCreation q.1.daysSinceCreation with h2 | h2
    · exact Or.inl (attnLE_true_iff.mpr (Or.inr ⟨h, h2⟩))
    · exact Or.inr (attnLE_true_iff.mpr (Or.inr ⟨h.symm, h2⟩))

lemma attnLE_trans (p q s : PreparedRow × String) (h1 : attnLE p q = true)
    (h2 : attnLE q s = true) : attnLE p s = true := by
  rcases attnLE_true_iff.mp h1 with ha | ⟨ha, ha2⟩ <;>
    rcases attnLE_true_iff.mp h2 with hb | ⟨hb, hb2⟩
  · exact attnLE_true_iff.mpr (Or.inl (ltOptAsc_trans ha hb))
  · exact attnLE_true_iff.mpr (Or.inl (hb ▸ ha))
  · exact attnLE_true_iff.mpr (Or.inl (ha ▸ hb))
  · exact attnLE_true_iff.mpr (Or.inr ⟨ha.trans hb, leOptDesc_trans ha2 hb2⟩)

lemma map_fst_pair {α β : Type} (f : α → β) (l : List α) :
    (l.map (fun r => (r, f r))).map Prod.fst = l := by
  induction l with
  | nil => rfl
  | cons a t ih => simp only [List.map_cons, ih]

/-- `_days_to_close < 0` with pandas NaN semantics (false on NaN). -/
def dtcNeg (r : PreparedRow) : Bool :=
  match r.daysToClose with
  | some d => decide (d < 0)
  | none => false

/-- `_days_to_close >= 0` with pandas NaN semantics (false on NaN). -/
def dtcNonneg (r : PreparedRow) : Bool :=
  match r.daysToClose with
  | some d => decide (0 ≤ d)
  | none => false

/-- The filter of `get_opportunities_to_update` (src/metrics.py lines
201-205): stagnant, at risk, or overdue. -/
def attnCond (r : PreparedRow) : Bool := r.isStagnant || r.isAtRisk || dtcNeg r

/-- The `Razon_Alerta` column (lines 208-214): `VENCIDA` where the close
day count is negative, `PROX_VENCER` where at risk and the count is
non-negative (the two `.loc` assignments hit disjoint rows), then
` ESTANCADA` appended wherever stagnant. -/
def razonAlerta (r : PreparedRow) : String :=
  (if dtcNeg r then "VENCIDA"
   else if r.isAtRisk && dtcNonneg r then "PROX_VENCER" else "")
  ++ (if r.isStagnant then " ESTANCADA" else "")

/-- `MetricsCalculator.get_opportunities_to_update` (lines 195-222):
filter, attach the alert reason, and sort by the lexicographic key. -/
def needsAttention (rows : List PreparedRow) : List (PreparedRow × String) :=
  stableSort attnLE ((rows.filter attnCond).map (fun r => (r, razonAlerta r)))

/-- The alert reason as the claim words it: the overdue marker when
`days_to_close < 0`, else the due-soon marker when `is_at_risk`, with the
stagnant marker appended whenever `is_stagnant`.  Stated from the spec to
be compared against `razonAlerta`. -/
def razonSpec (r : PreparedRow) : String :=
  (if dtcNeg r then "VENCIDA" else if r.isAtRisk then "PROX_VENCER" else "")
  ++ (if r.isStagnant then " ESTANCADA" else "")

lemma prepareRow_atRisk_none (today : Int) (x : Row)
    (h : (prepareRow today x).daysToClose = none) :
    (prepareRow today x).isAtRisk = false := by
  cases hx : x.closeDate with
  | none => simp [prepareRow, hx]
  | some d => simp [prepareRow, hx] at h

lemma razonAlerta_eq_spec (today : Int) (x : Row) :
    razonAlerta (prepareRow today x) = razonSpec (prepareRow today x) := by
  cases hdtc : (prepareRow today x).daysToClose with
  | some d =>
    rw [razonAlerta, razonSpec]
    have hneg : dtcNeg (prepareRow today x) = decide (d < 0) := by
      rw [dtcNeg, hdtc]
    have hnn : dtcNonneg (prepareRow today x) = decide (0 ≤ d) := by
      rw [dtcNonneg, hdtc]
    rw [hneg, hnn]
    by_cases hd : d < 0
    · simp [hd]
    · have h0 : (0 : Int) ≤ d := by omega
      simp [hd, h0]
  | none =>
    have hneg : dtcNeg (prepareRow today x) = false := by
      rw [dtcNeg, hdtc]
    have hrisk := prepareRow_atRisk_none today x hdtc
    rw [razonAlerta, razonSpec, hneg, hrisk]
    simp

/-- C9: the needs-attention list consists exactly of the records that are
stagnant, at risk, or overdue (a permutation of the filtered input); every
returned record carries the claimed alert reason; and the list is sorted
ascending by `days_to_close` with nulls last, ties descending by
`days_since_creation`. -/
theorem needsAttention_spec (today : Int) (rows : List Row) :
    List.Perm ((needsAttention (prepareData today rows)).map Prod.fst)
        ((prepareData today rows).filter attnCond)
    ∧ (∀ p ∈ needsAttention (prepareData today rows), p.2 = razonSpec p.1)
    ∧ (needsAttention (prepareData today rows)).Pairwise (fun p q =>
        ltOptAsc p.1.daysToClose q.1.daysToClose = true
          ∨ (p.1.daysToClose = q.1.daysToClose
              ∧ leOptDesc p.1.daysSinceCreation q.1.daysSinceCreation = true)) := by
  refine ⟨?_, ?_, ?_⟩
  · show List.Perm ((stableSort attnLE
        (((prepareData today rows).filter attnCond).map
          (fun r => (r, razonAlerta r)))).map Prod.fst) _
    have h1 := (stableSort_perm attnLE
      (((prepareData today rows).filter attnCond).map
        (fun r => (r, razonAlerta r)))).map Prod.fst
    rwa [map_fst_pair] at h1
  · intro p hp
    have hp2 : p ∈ ((prepareData today rows).filter attnCond).map
        (fun r => (r, razonAlerta r)) :=
      (stableSort_perm attnLE _).mem_iff.mp hp
    obtain ⟨r, hr, rfl⟩ := List.mem_map.mp hp2
    have hr2 : r ∈ prepareData today rows := List.mem_of_mem_filter hr
    obtain ⟨x, -, rfl⟩ := List.mem_map.mp hr2
    exact razonAlerta_eq_spec today x
  · exact (stableSort_pairwise attnLE_total
      (fun x y z => attnLE_trans x y z) _).imp (fun h => attnLE_true_iff.mp h)

/-- Concrete overdue and stagnant row for the C9 witness. -/
def attnWitnessRow : Row :=
  { id := "X", responsible := some "Ana", market := some "MX", customer := none
  , kpi := none, stage := none, usd := some 10
  , createdDate := some (-40), closeDate := some (-3) }

/-- C9 witness: the reason attached to a concrete overdue-and-stagnant
record matches the claimed reason semantics. -/
theorem needsAttention_spec_witness :
    ((prepareRow 0 attnWitnessRow, razonAlerta (prepareRow 0 attnWitnessRow)) :
        PreparedRow × String).2
      = razonSpec (prepareRow 0 attnWitnessRow) :=
  (needsAttention_spec 0 [attnWitnessRow]).2.1 _ (by decide)

/-! ## KPI severity classification
(`src/html_report_generator.py` and `src/email_renderer.py`) -/

/-- One entry of `KPI_CATEGORIES` in `src/config.py`: code, the
green/yellow thresholds, and whether the threshold applies to the
percentage of total rather than to the raw count. -/
structure KpiCategory where
  code : String
  green : ℚ
  yellow : ℚ
  isPercentage : Bool
deriving DecidableEq, Repr

/-- `KPI_CATEGORIES` (src/config.py lines 108-214), restricted to the
fields the severity classification reads. -/
def KPI_CATEGORIES : List KpiCategory :=
  [ ⟨"DC001 NB", 10, 15, true⟩
  , ⟨"DC001 CHURN", 100, 500, false⟩
  , ⟨"DC002 NB", 15, 50, false⟩
  , ⟨"DC002 CHURN", 15, 50, false⟩
  , ⟨"DC003", 1/2, 1, true⟩
  , ⟨"DC004", 50, 100, false⟩
  , ⟨"DC005", 3/2, 3, true⟩
  , ⟨"DC007", 5, 10, false⟩
  , ⟨"DC008", 15, 30, false⟩
  , ⟨"DC010", 0, 15, false⟩
  , ⟨"DC011", 0, 1, false⟩ ]

/-- The value compared against the thresholds in
`HTMLReportGenerator._build_kpi_severity_table`: `(count/total)*100` when
the code is percentage-based and the total is positive, else the raw
count. -/
def kpiValue (isPercentage : Bool) (count total : Nat) : ℚ :=
  if isPercentage && decide (0 < total) then ((count : ℚ) / (total : ℚ)) * 100
  else (count : ℚ)

/-- The severity band of `_build_kpi_severity_table`
(src/html_report_generator.py lines 560-590): inclusive boundaries. -/
def kpiSeverityClass (green yellow value : ℚ) : String :=
  if value ≤ green then "severity-low"
  else if value ≤ yellow then "severity-medium"
  else "severity-high"

/-- Severity of one `KPI_CATEGORIES` row at a given count and total. -/
def classifyKpiCount (cat : KpiCategory) (count total : Nat) : String :=
  kpiSeverityClass cat.green cat.yellow (kpiValue cat.isPercentage count total)

/-- `KPI_THRESHOLDS` local to `src/email_renderer.py` (lines 158-170):
the email renderer's own green/yellow table, distinct from
`KPI_CATEGORIES`. -/
def KPI_THRESHOLDS : List (String × Nat × Nat) :=
  [ ("DC001 NB", 50, 100)
  , ("DC001 CHURN", 100, 500)
  , ("DC002 NB", 15, 50)
  , ("DC002 CHURN", 15, 50)
  , ("DC003", 5, 10)
  , ("DC004", 50, 100)
  , ("DC005", 15, 30)
  , ("DC007", 5, 10)
  , ("DC008", 15, 30)
  , ("DC010", 1, 15)
  , ("DC011", 1, 1) ]

/-- `get_kpi_color` (src/email_renderer.py lines 171-179): traffic-light
color with STRICT boundaries — `count < green` is required for the green
color, unlisted codes default to `(20, 50)`. -/
def get_kpi_color (kpi : String) (count : Nat) : String :=
  let t := ((KPI_THRESHOLDS.find? (fun p => p.1 == kpi)).map Prod.snd).getD (20, 50)
  if count < t.1 then "#10b981"
  else if count < t.2 then "#f59e0b"
  else "#ef4444"

/-- C6 (counterexample): with thresholds green=15, yellow=50 the claim
demands severity low (the green color) for every value ≤ 15, but the email
renderer's classifier colors count 15 yellow — its boundary is strict. -/
theorem get_kpi_color_boundary_not_low :
    (15 : ℚ) ≤ 15
      ∧ get_kpi_color "DC002 NB" 15 = "#f59e0b"
      ∧ get_kpi_color "DC002 NB" 15 ≠ "#10b981" := by
  refine ⟨le_refl 15, ?_, ?_⟩
  · rfl
  · decide

/-- C6 (amended): the HTML report severity table uses inclusive
boundaries — value ≤ green is low, green < value ≤ yellow is medium,
value > yellow is high, where the value is the percentage of total for
percentage-based codes (total > 0) and the raw count otherwise; the email
renderer's color function instead uses strict boundaries on the raw
count — count < green is the green color, green ≤ count < yellow the
yellow color, and yellow ≤ count the red color — so at count = green it
yields yellow, not green.  With thresholds green=15, yellow=50, count 10
is low/green, 20 is medium/yellow and 60 is high/red under both. -/
theorem kpi_severity_boundaries :
    (∀ green yellow value : ℚ, green ≤ yellow →
        (value ≤ green → kpiSeverityClass green yellow value = "severity-low")
        ∧ (green < value → value ≤ yellow →
            kpiSeverityClass green yellow value = "severity-medium")
        ∧ (yellow < value → kpiSeverityClass green yellow value = "severity-high"))
    ∧ (∀ (kpi : String) (g y count : Nat), g ≤ y →
        ((KPI_THRESHOLDS.find? (fun p => p.1 == kpi)).map Prod.snd).getD (20, 50)
            = (g, y) →
        (count < g → get_kpi_color kpi count = "#10b981")
        ∧ (g ≤ count → count < y → get_kpi_color kpi count = "#f59e0b")
        ∧ (y ≤ count → get_kpi_color kpi count = "#ef4444"))
    ∧ (KPI_CATEGORIES.find? (fun cat => cat.code == "DC002 NB")
          = some ⟨"DC002 NB", 15, 50, false⟩
        ∧ classifyKpiCount ⟨"DC002 NB", 15, 50, false⟩ 10 100 = "severity-low"
        ∧ classifyKpiCount ⟨"DC002 NB", 15, 50, false⟩ 20 100 = "severity-medium"
        ∧ classifyKpiCount ⟨"DC002 NB", 15, 50, false⟩ 60 100 = "severity-high"
        ∧ get_kpi_color "DC002 NB" 10 = "#10b981"
        ∧ get_kpi_color "DC002 NB" 20 = "#f59e0b"
        ∧ get_kpi_color "DC002 NB" 60 = "#ef4444") := by
  refine ⟨?_, ?_, ?_⟩
  · intro green yellow value hgy
    refine ⟨?_, ?_, ?_⟩
    · intro h
      rw [kpiSeverityClass, if_pos h]
    · intro h1 h2
      rw [kpiSeverityClass, if_neg (by linarith), if_pos h2]
    · intro h
      rw [kpiSeverityClass, if_neg (by linarith), if_neg (by linarith)]
  · intro kpi g y count hgy h
    rw [get_kpi_color, h]
    refine ⟨?_, ?_, ?_⟩
    · intro hc
      rw [if_pos hc]
    · intro h1 h2
      rw [if_neg (by omega), if_pos h2]
    · intro h1
      rw [if_neg (by omega), if_neg (by omega)]
  · refine ⟨by decide, ?_, ?_, ?_, by decide, by decide, by decide⟩ <;> decide

/-- C6 witness: the amended theorem applied at thresholds green=15,
yellow=50 — value 20 is medium in the HTML table, and count 60 is red in
the email renderer. -/
theorem kpi_severity_boundaries_witness :
    kpiSeverityClass 15 50 20 = "severity-medium"
      ∧ get_kpi_color "DC002 NB" 60 = "#ef4444" :=
  ⟨(kpi_severity_boundaries.1 15 50 20 (by norm_num)).2.1 (by norm_num) (by norm_num),
   (kpi_severity_boundaries.2.1 "DC002 NB" 15 50 60 (by decide) (by decide)).2.2
      (by decide)⟩

end KpiReport
